import Mathlib

/-!
Verification of the ATP simulation-runner core of the LIS-ANALYSIS repository
(`src/acp_parser.py`, class `AtpRunner`).  The Python function
`AtpRunner.run_simulation` is shallowly embedded as a pure Lean function over
an explicit environment (`RunEnv`) that supplies every external observation the
code makes (filesystem contents at the pre-launch snapshot, solver process
outcome, environment variable, clock timestamps, and the success or failure of
the fallible `shutil` operations).  The filesystem is a finite map from paths
to file sizes; directories that exist are listed in the environment.
-/

set_option autoImplicit false

namespace LisAnalysis

/-! ## Paths — model of `pathlib.Path` (POSIX flavour) -/

/-- A filesystem path, as its list of components (root-first). -/
structure FPath where
  parts : List String
deriving DecidableEq, Repr

/-- Python `p / s` in pathlib: append one component. -/
def FPath.child (p : FPath) (s : String) : FPath := ⟨p.parts ++ [s]⟩

/-- Python `Path.name`: the final component (empty for the empty path). -/
def FPath.name (p : FPath) : String := (p.parts.getLast?).getD ""

/-- Python `Path.parent`: drop the final component. -/
def FPath.parent (p : FPath) : FPath := ⟨p.parts.dropLast⟩

/-- Python `str(path)`: components joined by `/`. -/
def FPath.display (p : FPath) : String := String.intercalate "/" p.parts

/-! ### Name stem and suffix, following `pathlib`'s rule: the suffix starts at
the last dot of the name, provided that dot is neither the first nor the last
character of the name. -/

/-- On the reversed character list of a name, split at the first dot
(that is, the last dot of the name).  Returns
`(charsAfterDotReversed, charsBeforeDotReversed)`. -/
def splitRevAtDot : List Char → Option (List Char × List Char)
  | [] => none
  | c :: cs =>
      if c = '.' then some ([], cs)
      else (splitRevAtDot cs).map (fun pr => (c :: pr.1, pr.2))

/-- Python `Path(name).suffix` as in pathlib. -/
def nameSuffix (n : String) : String :=
  match splitRevAtDot n.data.reverse with
  | some (sufRev, stemRev) =>
      if sufRev ≠ [] ∧ stemRev ≠ [] then ⟨'.' :: sufRev.reverse⟩ else ""
  | none => ""

/-- Python `Path(name).stem` as in pathlib. -/
def nameStem (n : String) : String :=
  match splitRevAtDot n.data.reverse with
  | some (sufRev, stemRev) =>
      if sufRev ≠ [] ∧ stemRev ≠ [] then ⟨stemRev.reverse⟩ else n
  | none => n

/-- Python `Path.stem`. -/
def FPath.stem (p : FPath) : String := nameStem p.name

/-- Python `Path.with_suffix(newSuf)`: same directory, name is the stem with the new
suffix appended. -/
def withSuffix (p : FPath) (newSuf : String) : FPath :=
  p.parent.child (nameStem p.name ++ newSuf)

/-! ## String helpers mirroring the Python string operations used -/

/-- Python `str.lower()` (ASCII letters; the names involved are ASCII). -/
def strToLower (s : String) : String := ⟨s.data.map Char.toLower⟩

/-- Boolean "`xs` is an initial segment of `ys`". -/
def isStartOf {α : Type} [DecidableEq α] : List α → List α → Bool
  | [], _ => true
  | _ :: _, [] => false
  | a :: as, b :: bs => decide (a = b) && isStartOf as bs

/-- Python `s.endswith(suf)`. -/
def strEndsWith (s suf : String) : Bool := isStartOf suf.data.reverse s.data.reverse

/-- Characters matched by Python's regex class `\s` (ASCII range). -/
def pyIsSpace (c : Char) : Bool :=
  c = ' ' || c = '\t' || c = '\n' || c = '\x0d' || c = '\x0b' || c = '\x0c'

/-- A character replaced by the deck-name sanitizer (`re.sub(r'[=\s]+', '_', name)`):
`=` or whitespace. -/
def sanTarget (c : Char) : Bool := c = '=' || pyIsSpace c

/-- Replace every maximal run of `=`/whitespace characters with one `_`;
the flag records whether the previous character belonged to such a run (so a
run contributes a single underscore). -/
def sanitizeAux : Bool → List Char → List Char
  | _, [] => []
  | inRun, c :: cs =>
      if sanTarget c then
        (if inRun then sanitizeAux true cs else '_' :: sanitizeAux true cs)
      else c :: sanitizeAux false cs

/-- Python `re.sub(r'[=\s]+', '_', s)`. -/
def sanitizeName (s : String) : String := ⟨sanitizeAux false s.data⟩

/-- Strip leading and trailing whitespace, as `int()` does before parsing. -/
def pyStrip (l : List Char) : List Char :=
  ((l.dropWhile pyIsSpace).reverse.dropWhile pyIsSpace).reverse

/-- After the first digit, a Python integer literal body: digits with single
underscores allowed only between digits. -/
def digitsTail : List Char → Bool
  | [] => true
  | '_' :: rest =>
      match rest with
      | d :: rest2 => d.isDigit && digitsTail rest2
      | [] => false
  | d :: rest => d.isDigit && digitsTail rest

/-- A valid (unsigned) Python decimal digit string: nonempty, starts with a
digit, underscores only between digits. -/
def pyDigitsOk : List Char → Bool
  | [] => false
  | c :: rest => c.isDigit && digitsTail rest

/-- Numeric value of the digit characters (underscores skipped). -/
def digitsVal (l : List Char) : Nat :=
  (l.filter Char.isDigit).foldl (fun a c => a * 10 + (c.toNat - '0'.toNat)) 0

/-- Model of Python `int(s)` on a decimal string: strips surrounding
whitespace, allows one optional sign, digits with in-between underscores;
`none` when `int` would raise `ValueError`. -/
def pyInt (s : String) : Option Int :=
  match pyStrip s.data with
  | '+' :: rest => if pyDigitsOk rest then some (Int.ofNat (digitsVal rest)) else none
  | '-' :: rest => if pyDigitsOk rest then some (-(Int.ofNat (digitsVal rest))) else none
  | l => if pyDigitsOk l then some (Int.ofNat (digitsVal l)) else none

/-- Lines 420–427 of `run_simulation`: the wall-clock timeout is 300 seconds
unless the environment variable `ATP_TIMEOUT` holds a nonempty string that
`int()` accepts, in which case that value is used; a parse failure is caught
and the default kept. -/
def effectiveTimeout (envVal : Option String) : Int :=
  match envVal with
  | none => 300
  | some s =>
      if s = "" then 300
      else match pyInt s with
           | some v => v
           | none => 300

/-! ## Filesystem model: a finite map from paths to file sizes -/

/-- The files present, with their sizes in bytes. -/
abbrev FS := List (FPath × Nat)

/-- Size of the file at `p`, if present. -/
def fsLookup (fs : FS) (p : FPath) : Option Nat :=
  (fs.find? (fun pr => decide (pr.1 = p))).map (fun pr => pr.2)

/-- Python `unlink(missing_ok=True)`. -/
def fsErase (fs : FS) (p : FPath) : FS := fs.filter (fun pr => decide (pr.1 ≠ p))

/-- Create or overwrite the file at `p` with size `n`. -/
def fsInsert (fs : FS) (p : FPath) (n : Nat) : FS := (p, n) :: fsErase fs p

/-- Python `stat().st_size`, with 0 for a missing file (the code's fallback). -/
def fsSize (fs : FS) (p : FPath) : Nat := (fsLookup fs p).getD 0

/-- Python `Path.exists()`. -/
def fsExists (fs : FS) (p : FPath) : Bool := (fsLookup fs p).isSome

/-- Python `shutil.move` of a file. -/
def fsMove (fs : FS) (src dst : FPath) : FS :=
  fsInsert (fsErase fs src) dst (fsSize fs src)

/-- Entry names of directory `d` (`set(p.name for p in d.glob('*'))`). -/
def dirNames (fs : FS) (d : FPath) : List String :=
  (fs.filter (fun pr => decide (pr.1.parent = d))).map (fun pr => pr.1.name)

/-! ## The run environment

`RunEnv` bundles every external observation `run_simulation` makes: the
arguments, the filesystem at entry, which directories exist, how the solver
process ends (lines 412–455 collapse a completed run, the timeout kill and a
spawn failure into the sentinel-bearing `result_returncode`), the clock, and
whether each fallible `shutil` operation succeeds. -/

/-- Terminal state of the supervised solver process. -/
inductive ProcOutcome where
  | completed (code : Int)
  | timedOut
  | spawnFailed
deriving DecidableEq, Repr

/-- Python `result_returncode` after the `try/except` of lines 412–455: the real exit
code, `-9` after a timeout kill, `-1` after a spawn failure. -/
def resultReturncode : ProcOutcome → Int
  | .completed c => c
  | .timedOut => -9
  | .spawnFailed => -1

/-- The outcome classification written in the run log. -/
inductive RunStatus where
  | success
  | timeoutWithLis
  | error
  | emptyLis
  | noLis
deriving DecidableEq, Repr

structure RunEnv where
  /-- Path of the `.acp` deck (`acp_path`). -/
  acpPath : FPath
  /-- The `output_dir` argument (`none` = default). -/
  outputDir : Option FPath
  /-- Directory of the `acp_parser.py` module (`Path(__file__).parent`). -/
  moduleDir : FPath
  /-- Python `self.atpdraw_path` as a path. -/
  atpdrawPath : FPath
  /-- Python `Path(shutil.which(self.atpdraw_path) or self.atpdraw_path)`. -/
  resolvedSolver : FPath
  /-- Python `solver_path.exists()`. -/
  solverExists : Bool
  /-- Python `os.name == 'nt'`. -/
  isWindows : Bool
  /-- Python `shutil.which('wine')` found something. -/
  wineAvailable : Bool
  /-- Filesystem contents at entry to `run_simulation`. -/
  fs0 : FS
  /-- Directories that exist (held stable over the run). -/
  existingDirs : List FPath
  /-- Byte size of the deck text written to the scratch `.atp` file. -/
  atpSize : Nat
  /-- Whether `shutil.copy2(temp_atp, deck_in_solver)` succeeds (line 346). -/
  copyDeckOk : Bool
  /-- Effect of the include-copy heuristic (lines 351–374): entry names (and
  sizes) of include files copied into the solver cwd when not already present.
  Which files the regex scan selects depends on the deck text, which the
  environment abstracts into this list. -/
  includeCopies : List (String × Nat)
  /-- Files created or overwritten by the solver process, in order. -/
  solverCreated : List (FPath × Nat)
  /-- How the supervised process ended. -/
  proc : ProcOutcome
  /-- Python `os.environ.get('ATP_TIMEOUT')`. -/
  envTimeout : Option String
  /-- Captured standard output of the process. -/
  stdoutStr : String
  /-- Captured standard error of the process. -/
  stderrStr : String
  /-- Python `datetime.now()` timestamp taken at line 499 (log file name). -/
  ts1 : String
  /-- Python `datetime.now()` timestamp taken at line 519 / 678 (result file name). -/
  ts2 : String
  /-- Whether `shutil.move` of the result file succeeds (lines 522 and 681). -/
  moveLisOk : Bool
  /-- Whether `shutil.move` of the `.dbg` companion succeeds (lines 542/699). -/
  moveDbgOk : Bool
  /-- An unexpected exception raised during artifact processing, reaching the
  handler at lines 782–784 (modelled as raised right after the post-run
  snapshot). -/
  raiseUnexpected : Bool
  /-- Python `self.atpdraw_path` is truthy (guard at line 310). -/
  atpdrawFound : Bool
  /-- Python `acp_path.exists()` (guard at line 315). -/
  acpExists : Bool
  /-- Python `extract_atp_from_acp` produced text (guard at line 323). -/
  extractOk : Bool
deriving Repr

/-- What `run_simulation` leaves behind: its return value, the final
filesystem, the branch taken, the effective output directory, and the log. -/
structure RunResult where
  ret : Option FPath
  fs : FS
  status : Option RunStatus
  effOutDir : Option FPath
  logPath : Option FPath
  logLines : List String
  timeoutUsed : Option Int
deriving DecidableEq, Repr

/-! ## Derived quantities of a run (straight-line code of lines 326–500) -/

/-- The three entry guards (lines 310–324) all pass. -/
def guardsOk (env : RunEnv) : Bool :=
  env.atpdrawFound && env.acpExists && env.extractOk

/-- Python `temp_atp = acp_path.with_suffix('.atp')` (line 327). -/
def tempAtp (env : RunEnv) : FPath := withSuffix env.acpPath ".atp"

/-- Python `run_cwd` (line 340). -/
def runCwd (env : RunEnv) : FPath :=
  if env.solverExists then env.resolvedSolver.parent else env.acpPath.parent

/-- Python `ext = Path(self.atpdraw_path).suffix.lower()` (line 336). -/
def extLower (env : RunEnv) : String := strToLower (nameSuffix env.atpdrawPath.name)

/-- Python `ext in ['.bat', '.cmd']`. -/
def isScripted (env : RunEnv) : Bool :=
  decide (extLower env = ".bat") || decide (extLower env = ".cmd")

/-- Python `sanitized_name = re.sub(r'[=\s]+', '_', temp_atp.name)` (line 343). -/
def sanitizedDeckName (env : RunEnv) : String := sanitizeName (tempAtp env).name

/-- Python `deck_in_solver` (lines 344–349): the sanitized copy in the solver cwd, or
the original scratch path when the copy failed. -/
def deckInSolver (env : RunEnv) : FPath :=
  if env.copyDeckOk then (runCwd env).child (sanitizedDeckName env) else tempAtp env

/-- Filesystem after writing the scratch `.atp` (line 328). -/
def fsWithTemp (env : RunEnv) : FS := fsInsert env.fs0 (tempAtp env) env.atpSize

/-- Filesystem after the `shutil.copy2` of the sanitized deck (line 346). -/
def fsWithDeck (env : RunEnv) : FS :=
  if env.copyDeckOk then
    fsInsert (fsWithTemp env) ((runCwd env).child (sanitizedDeckName env)) env.atpSize
  else fsWithTemp env

/-- Filesystem at the pre-launch snapshot (after the include-copy heuristic of
lines 351–374, which copies each selected include next to the deck unless a
same-named file is already present). -/
def fsPrepared (env : RunEnv) : FS :=
  env.includeCopies.foldl
    (fun fs pr =>
      if fsExists fs ((runCwd env).child pr.1) then fs
      else fsInsert fs ((runCwd env).child pr.1) pr.2)
    (fsWithDeck env)

/-- Python `AtpRunner._default_output_dir` (lines 789–801): the `.acp` file's own
directory when that directory is named `ACP` (case-insensitively), otherwise
the `ACP` directory next to the module file. -/
def defaultOutputDir (env : RunEnv) : FPath :=
  if strToLower env.acpPath.parent.name = "acp" then env.acpPath.parent
  else env.moduleDir.child "ACP"

/-- Python `effective_output_dir` (line 377). -/
def effOut (env : RunEnv) : FPath :=
  match env.outputDir with
  | some d => d
  | none => defaultOutputDir env

/-- Python `search_dirs` (lines 379–386). -/
def searchDirs (env : RunEnv) : List FPath :=
  let s1 := [runCwd env]
  let s2 := if env.acpPath.parent ∈ s1 then s1 else s1 ++ [env.acpPath.parent]
  if isScripted env && decide (env.atpdrawPath.parent ∈ env.existingDirs)
      && decide (env.atpdrawPath.parent ∉ s2) then
    s2 ++ [env.atpdrawPath.parent]
  else s2

/-- The monitored directories that exist and are therefore snapshot
(`for d in search_dirs if d.exists()`, line 389). -/
def snapshotDirs (env : RunEnv) : List FPath :=
  (searchDirs env).filter (fun d => decide (d ∈ env.existingDirs))

/-- Python `before_files` (line 389): per-directory entry names before launch. -/
def beforeMap (env : RunEnv) : List (FPath × List String) :=
  (snapshotDirs env).map (fun d => (d, dirNames (fsPrepared env) d))

/-- Filesystem after the solver process has run (line 458's view). -/
def fsAfter (env : RunEnv) : FS :=
  env.solverCreated.foldl (fun fs pr => fsInsert fs pr.1 pr.2) (fsPrepared env)

/-- Insert into a `≤`-sorted list of strings. -/
def insSorted (s : String) : List String → List String
  | [] => [s]
  | t :: ts => if t < s then t :: insSorted s ts else s :: t :: ts

/-- Python `sorted(...)` on strings. -/
def sortStrs (l : List String) : List String := l.foldr insSorted []

/-- Python `set(...)` collapse: drop duplicate strings. -/
def dedupStrs (l : List String) : List String :=
  l.foldr (fun s acc => if s ∈ acc then acc else s :: acc) []

/-- Python `new_files_per_dir` (lines 459–463): per monitored directory, the sorted
set of entry names present after but not before the launch. -/
def newPerDir (env : RunEnv) : List (FPath × List String) :=
  (beforeMap env).map (fun pr =>
    (pr.1, sortStrs (dedupStrs
      ((dirNames (fsAfter env) pr.1).filter (fun n => decide (n ∉ pr.2))))))

/-- Python `new_files` (lines 465–468): the sorted set of all new entry names. -/
def newFilesAgg (env : RunEnv) : List String :=
  sortStrs (dedupStrs ((newPerDir env).flatMap (fun pr => pr.2)))

/-- The two fixed candidate result paths (lines 472–475). -/
def lisCandidates (env : RunEnv) : List FPath :=
  [withSuffix env.acpPath ".lis", withSuffix env.acpPath ".LIS"]

/-- Direct candidate lookup (lines 476–479). -/
def lisDirect (env : RunEnv) : Option FPath :=
  (lisCandidates env).find? (fun c => fsExists (fsAfter env) c)

/-- Python `d.glob('*.lis')` followed by `d.glob('*.LIS')`. -/
def globLis (fs : FS) (d : FPath) : List FPath :=
  ((fs.filter (fun pr => decide (pr.1.parent = d) && strEndsWith pr.1.name ".lis")).map
    (fun pr => pr.1))
  ++ ((fs.filter (fun pr => decide (pr.1.parent = d) && strEndsWith pr.1.name ".LIS")).map
    (fun pr => pr.1))

/-- Python `sanitized_stem` (line 484). -/
def sanitizedStem (env : RunEnv) : String := nameStem (deckInSolver env).name

/-- Python `p.stem.lower() in (acp_path.stem.lower(), sanitized_stem.lower())`. -/
def stemMatchB (env : RunEnv) (p : FPath) : Bool :=
  decide (strToLower p.stem = strToLower env.acpPath.stem)
  || decide (strToLower p.stem = strToLower (sanitizedStem env))

/-- Fallback search over the monitored directories (lines 480–493). -/
def lisFallback (env : RunEnv) : Option FPath :=
  (searchDirs env).findSome? (fun d => (globLis (fsAfter env) d).find? (stemMatchB env))

/-- Python `lis_path` after the whole search (lines 470–493). -/
def lisFound (env : RunEnv) : Option FPath :=
  match lisDirect env with
  | some c => some c
  | none => lisFallback env

/-- Shorthand for `result_returncode`. -/
def rcOf (env : RunEnv) : Int := resultReturncode env.proc

/-- Python `deck_arg` (line 393). -/
def deckArg (env : RunEnv) : String :=
  if (deckInSolver env).parent = runCwd env then (deckInSolver env).name
  else (deckInSolver env).display

/-- The command line (lines 394–406). -/
def cmdList (env : RunEnv) : List String :=
  if isScripted env then
    (if env.isWindows then ["cmd", "/c", env.atpdrawPath.display, deckArg env]
     else ["wine", "cmd", "/c", env.atpdrawPath.display, deckArg env])
  else [env.atpdrawPath.display, deckArg env]

/-- The early return at lines 402–404: a `.bat`/`.cmd` solver on a non-Windows
host without Wine. -/
def wineEarly (env : RunEnv) : Bool :=
  isScripted env && !env.isWindows && !env.wineAvailable

/-- Python `log_path = logs_dir / f"{acp_path.stem}_{timestamp}.log"` (lines 497–500). -/
def logPathOf (env : RunEnv) : FPath :=
  ((effOut env).child "logs").child (env.acpPath.stem ++ "_" ++ env.ts1 ++ ".log")

/-- Relocation target for the result file (lines 520 and 679). -/
def newLisPath (env : RunEnv) : FPath :=
  (effOut env).child (env.acpPath.stem ++ "_" ++ env.ts2 ++ ".lis")

/-- Relocation target for the `.dbg` companion (lines 541 and 698). -/
def newDbgPath (env : RunEnv) : FPath :=
  (effOut env).child (env.acpPath.stem ++ "_" ++ env.ts2 ++ ".dbg")

/-- The `.dbg` companion filter (lines 531 / 688). -/
def isDbgMatch (env : RunEnv) (fname : String) : Bool :=
  strEndsWith (strToLower fname) ".dbg"
  && decide (strToLower (nameStem fname) = strToLower env.acpPath.stem)

/-- Python `.dbg` detection over the per-directory new files (lines 528–537 /
685–694): the first new entry matching by extension and stem that exists. -/
def findDbg (env : RunEnv) (fsCur : FS) : Option FPath :=
  (newPerDir env).findSome? (fun pr =>
    (pr.2.find? (fun fname => isDbgMatch env fname && fsExists fsCur (pr.1.child fname))).map
      (fun fname => pr.1.child fname))

/-- Detect and best-effort move the `.dbg` companion (lines 538–545 /
695–702); on a move failure the original path is kept. -/
def moveDbgStep (env : RunEnv) (fsCur : FS) : FS × Option FPath :=
  match findDbg env fsCur with
  | some dp =>
      if env.moveDbgOk then (fsMove fsCur dp (newDbgPath env), some (newDbgPath env))
      else (fsCur, some dp)
  | none => (fsCur, none)

/-- A new entry name marked as solver scratch (`.tmp`/`.bin`, lines 576/737). -/
def isTmpName (n : String) : Bool :=
  strEndsWith (strToLower n) ".tmp" || strEndsWith (strToLower n) ".bin"

/-- The paths unlinked by the scratch cleanup (lines 571–582 / 731–743). -/
def tmpTargets (env : RunEnv) : List FPath :=
  (newPerDir env).flatMap (fun pr => (pr.2.filter isTmpName).map (fun n => pr.1.child n))

/-- Unlink each target. -/
def cleanupFS (targets : List FPath) (fs : FS) : FS := targets.foldl fsErase fs

/-! ## Log text -/

/-- Python `x or '(vazio)'`. -/
def orVazio (s : String) : String := if s = "" then "(vazio)" else s

/-- Python `', '.join(l) if l else '(none)'`. -/
def joinComma (l : List String) : String :=
  if l = [] then "(none)" else String.intercalate ", " l

/-- The per-directory lines of the log body. -/
def perDirLines (env : RunEnv) : List String :=
  (newPerDir env).map (fun pr => "  " ++ pr.1.display ++ ": " ++ joinComma pr.2)

/-- The header lines shared by the error/empty/salvage/success logs. -/
def commonHead (env : RunEnv) (statusStr : String) : List String :=
  ["Status: " ++ statusStr,
   "Return code: " ++ toString (rcOf env),
   "CWD: " ++ (runCwd env).display,
   "Command: " ++ String.intercalate " " (cmdList env),
   "New files: " ++ joinComma (newFilesAgg env),
   "New files per directory:"] ++ perDirLines env

/-- The captured stream dump at the end of every log. -/
def streamLines (env : RunEnv) : List String :=
  ["---- STDOUT ----", orVazio env.stdoutStr, "---- STDERR ----", orVazio env.stderrStr]

/-- Python `f"DBG: {dbg_path if dbg_path else '(none)'}"`. -/
def dbgLineStr (d : Option FPath) : String :=
  match d with
  | some p => "DBG: " ++ p.display
  | none => "DBG: (none)"

/-- Size of the written log file: length of the joined lines. -/
def linesLen (ls : List String) : Nat := (String.intercalate "\n" ls).length

/-- The note appended to the log after scratch cleanup (lines 586–588 /
747–750): `'\nRemoved temps: ' + names + '\n'`. -/
def removedLine (targets : List FPath) : List String :=
  ["Removed temps: " ++ String.intercalate ", " (targets.map FPath.name), ""]

/-! ## The terminal branches of `run_simulation` -/

/-- The generic exception handler (lines 782–784): `None` is returned and
nothing further is written. -/
def exceptResult (env : RunEnv) (fsCur : FS) : RunResult :=
  { ret := none, fs := fsCur, status := none, effOutDir := some (effOut env),
    logPath := none, logLines := [], timeoutUsed := some (effectiveTimeout env.envTimeout) }

/-- Write the log, unlink the new `.tmp`/`.bin` scratch files, and append the
removal note to the log (lines 548–589 / 705–751). -/
def logCleanupFinish (env : RunEnv) (fsCur : FS) (lines1 : List String) :
    FS × List String :=
  let fsC := fsInsert fsCur (logPathOf env) (linesLen lines1)
  let targets := tmpTargets env
  let fsD := cleanupFS targets fsC
  if targets = [] then (fsD, lines1)
  else (fsInsert fsD (logPathOf env) (linesLen (lines1 ++ removedLine targets)),
        lines1 ++ removedLine targets)

/-- Lines 516–592: non-zero exit code with a usable (size > 0) result file.
The move into the output directory is attempted; a failure is swallowed and
the original path kept.  The scratch deck is unlinked (line 591) and the
result path returned. -/
def salvageResult (env : RunEnv) (p : FPath) : RunResult :=
  let fsA := if env.moveLisOk then fsMove (fsAfter env) p (newLisPath env) else fsAfter env
  let eff := if env.moveLisOk then newLisPath env else p
  let step := moveDbgStep env fsA
  let lines1 := commonHead env "timeout_with_lis"
      ++ ["LIS: " ++ eff.display ++ " (gerado apesar do erro/timeout; pode estar incompleto)",
          dbgLineStr step.2]
      ++ streamLines env
  let fin := logCleanupFinish env step.1 lines1
  { ret := some eff, fs := fsErase fin.1 (tempAtp env),
    status := some RunStatus.timeoutWithLis, effOutDir := some (effOut env),
    logPath := some (logPathOf env), logLines := fin.2,
    timeoutUsed := some (effectiveTimeout env.envTimeout) }

/-- Lines 675–756: zero exit code with a usable result file.  The move at line
681 is not protected: its failure propagates to the outer handler (return
`None`).  On success the file is relocated, logged, scratch cleaned, and the
new path returned. -/
def successResult (env : RunEnv) (p : FPath) : RunResult :=
  if env.moveLisOk then
    let fsA := fsMove (fsAfter env) p (newLisPath env)
    let step := moveDbgStep env fsA
    let lines1 := commonHead env "success"
        ++ ["LIS: " ++ (newLisPath env).display, dbgLineStr step.2]
        ++ streamLines env
    let fin := logCleanupFinish env step.1 lines1
    { ret := some (newLisPath env), fs := fsErase fin.1 (tempAtp env),
      status := some RunStatus.success, effOutDir := some (effOut env),
      logPath := some (logPathOf env), logLines := fin.2,
      timeoutUsed := some (effectiveTimeout env.envTimeout) }
  else exceptResult env (fsAfter env)

/-- Lines 593–632: non-zero exit code without a usable result.  A located
zero-byte result file is unlinked; the error log is written; `None` returned. -/
def errorResult (env : RunEnv) (zeroLis : Option FPath) : RunResult :=
  let fsA := match zeroLis with
             | some p => fsErase (fsAfter env) p
             | none => fsAfter env
  let lines := commonHead env "error" ++ streamLines env
  { ret := none, fs := fsInsert fsA (logPathOf env) (linesLen lines),
    status := some RunStatus.error, effOutDir := some (effOut env),
    logPath := some (logPathOf env), logLines := lines,
    timeoutUsed := some (effectiveTimeout env.envTimeout) }

/-- Lines 641–673: zero exit code, zero-byte result: the file is unlinked, the
`empty_lis` log written, `None` returned. -/
def emptyLisResult (env : RunEnv) (p : FPath) : RunResult :=
  let fsA := fsErase (fsAfter env) p
  let lines := commonHead env "empty_lis" ++ streamLines env
  { ret := none, fs := fsInsert fsA (logPathOf env) (linesLen lines),
    status := some RunStatus.emptyLis, effOutDir := some (effOut env),
    logPath := some (logPathOf env), logLines := lines,
    timeoutUsed := some (effectiveTimeout env.envTimeout) }

/-- Lines 757–777: zero exit code, no result file located. -/
def noLisResult (env : RunEnv) : RunResult :=
  let lines := ["Status: no_lis",
                "Return code: " ++ toString (rcOf env),
                "CWD: " ++ (runCwd env).display,
                "Command: " ++ String.intercalate " " (cmdList env),
                "New files: " ++ joinComma (newFilesAgg env)]
               ++ streamLines env
  { ret := none, fs := fsInsert (fsAfter env) (logPathOf env) (linesLen lines),
    status := some RunStatus.noLis, effOutDir := some (effOut env),
    logPath := some (logPathOf env), logLines := lines,
    timeoutUsed := some (effectiveTimeout env.envTimeout) }

/-- The outcome classification (lines 502–777), in the order the code
evaluates it. -/
def classify (env : RunEnv) : RunResult :=
  if env.raiseUnexpected then exceptResult env (fsAfter env)
  else if rcOf env ≠ 0 then
    match lisFound env with
    | some p =>
        if 0 < fsSize (fsAfter env) p then salvageResult env p
        else errorResult env (some p)
    | none => errorResult env none
  else
    match lisFound env with
    | some p =>
        if fsSize (fsAfter env) p = 0 then emptyLisResult env p
        else successResult env p
    | none => noLisResult env

/-- Body of the `try` block: the early Wine return (lines 402–404) or the
classified outcome. -/
def runCore (env : RunEnv) : RunResult :=
  if wineEarly env then
    { ret := none, fs := fsPrepared env, status := none, effOutDir := some (effOut env),
      logPath := none, logLines := [], timeoutUsed := none }
  else classify env

/-- Python `AtpRunner.run_simulation` (lines 299–787).  The entry guards come first;
once the scratch deck exists, every exit path runs through the `finally`
block's `temp_atp.unlink(missing_ok=True)` (lines 785–787), modelled as the
final erase. -/
def run_simulation (env : RunEnv) : RunResult :=
  if guardsOk env then
    let r := runCore env
    { r with fs := fsErase r.fs (tempAtp env) }
  else
    { ret := none, fs := env.fs0, status := none, effOutDir := none,
      logPath := none, logLines := [], timeoutUsed := none }

/-! ## Lemmas about the filesystem map -/

theorem fsLookup_cons (a : FPath × Nat) (t : FS) (p : FPath) :
    fsLookup (a :: t) p = if a.1 = p then some a.2 else fsLookup t p := by
  by_cases h : a.1 = p <;> simp [fsLookup, List.find?_cons, h]

theorem fsErase_cons (a : FPath × Nat) (t : FS) (p : FPath) :
    fsErase (a :: t) p = if a.1 = p then fsErase t p else a :: fsErase t p := by
  by_cases h : a.1 = p <;> simp [fsErase, List.filter_cons, h]

theorem fsLookup_erase_self (fs : FS) (p : FPath) :
    fsLookup (fsErase fs p) p = none := by
  induction fs with
  | nil => rfl
  | cons a t ih =>
      rw [fsErase_cons]
      by_cases h : a.1 = p
      · simpa [h] using ih
      · rw [if_neg h, fsLookup_cons, if_neg h]
        exact ih

theorem fsLookup_erase_ne (fs : FS) (p q : FPath) (h : q ≠ p) :
    fsLookup (fsErase fs p) q = fsLookup fs q := by
  induction fs with
  | nil => rfl
  | cons a t ih =>
      rw [fsErase_cons]
      by_cases ha : a.1 = p
      · rw [if_pos ha, fsLookup_cons, if_neg (by rw [ha]; exact fun e => h e.symm)]
        exact ih
      · rw [if_neg ha, fsLookup_cons, fsLookup_cons]
        by_cases hq : a.1 = q
        · rw [if_pos hq, if_pos hq]
        · rw [if_neg hq, if_neg hq]
          exact ih

theorem fsLookup_insert_self (fs : FS) (p : FPath) (n : Nat) :
    fsLookup (fsInsert fs p n) p = some n := by
  rw [fsInsert, fsLookup_cons, if_pos rfl]

theorem fsLookup_insert_ne (fs : FS) (p q : FPath) (n : Nat) (h : q ≠ p) :
    fsLookup (fsInsert fs p n) q = fsLookup fs q := by
  rw [fsInsert, fsLookup_cons, if_neg (fun e => h e.symm)]
  exact fsLookup_erase_ne fs p q h

theorem fsLookup_eq_size_of_exists (fs : FS) (p : FPath) (h : fsExists fs p = true) :
    fsLookup fs p = some (fsSize fs p) := by
  unfold fsExists at h
  obtain ⟨n, hn⟩ := Option.isSome_iff_exists.mp h
  rw [hn, fsSize, hn]
  rfl

theorem fsLookup_cleanup_of_ne (ts : List FPath) (fs : FS) (q : FPath)
    (h : ∀ t ∈ ts, t ≠ q) : fsLookup (cleanupFS ts fs) q = fsLookup fs q := by
  induction ts generalizing fs with
  | nil => rfl
  | cons t rest ih =>
      rw [cleanupFS, List.foldl_cons]
      rw [show (List.foldl fsErase (fsErase fs t) rest) = cleanupFS rest (fsErase fs t) from rfl]
      rw [ih (fsErase fs t) (fun x hx => h x (List.mem_cons_of_mem t hx))]
      exact fsLookup_erase_ne fs t q (fun e => (h t (List.mem_cons_self t rest)) e.symm)

theorem fsLookup_cleanup_none (ts : List FPath) (fs : FS) (q : FPath)
    (h : fsLookup fs q = none) : fsLookup (cleanupFS ts fs) q = none := by
  induction ts generalizing fs with
  | nil => exact h
  | cons t rest ih =>
      rw [cleanupFS, List.foldl_cons]
      rw [show (List.foldl fsErase (fsErase fs t) rest) = cleanupFS rest (fsErase fs t) from rfl]
      refine ih (fsErase fs t) ?_
      by_cases hq : q = t
      · rw [hq]; exact fsLookup_erase_self fs t
      · rw [fsLookup_erase_ne fs t q hq]; exact h

theorem fsLookup_cleanup_mem (ts : List FPath) (fs : FS) (q : FPath)
    (h : q ∈ ts) : fsLookup (cleanupFS ts fs) q = none := by
  induction ts generalizing fs with
  | nil => cases h
  | cons t rest ih =>
      rw [cleanupFS, List.foldl_cons]
      rw [show (List.foldl fsErase (fsErase fs t) rest) = cleanupFS rest (fsErase fs t) from rfl]
      rcases List.mem_cons.mp h with rfl | hmem
      · exact fsLookup_cleanup_none rest (fsErase fs q) q (fsLookup_erase_self fs q)
      · exact ih (fsErase fs t) hmem

/-! ## The last-lowercased-character discriminator for file names

Almost every path the finalizer touches carries a distinguishing extension:
result files end in `.lis`/`.LIS`, the scratch deck in `.atp`, logs in
`.log`, companions in `.dbg`, scratch temporaries in `.tmp`/`.bin`.  The last
character of the lowercased name separates all the pairs of these that the
proofs must tell apart. -/

/-- The last character of the lowercased string. -/
def lowKey (s : String) : Option Char := ((strToLower s).data.reverse).head?

theorem head?_append_left {α : Type} (l₁ l₂ : List α) (h : l₁ ≠ []) :
    (l₁ ++ l₂).head? = l₁.head? := by
  cases l₁ with
  | nil => exact absurd rfl h
  | cons a t => rfl

theorem str_data_append (a b : String) : (a ++ b).data = a.data ++ b.data := rfl

theorem lowKey_append (a b : String) (h : b.data ≠ []) : lowKey (a ++ b) = lowKey b := by
  unfold lowKey strToLower
  rw [show ((⟨(a ++ b).data.map Char.toLower⟩ : String)).data
        = a.data.map Char.toLower ++ b.data.map Char.toLower by
      simp [str_data_append]]
  rw [List.reverse_append]
  exact head?_append_left _ _ (by simpa using h)

theorem exists_of_isStartOf {α : Type} [DecidableEq α] {xs ys : List α}
    (h : isStartOf xs ys = true) : ∃ t, ys = xs ++ t := by
  induction xs generalizing ys with
  | nil => exact ⟨ys, rfl⟩
  | cons a as ih =>
      cases ys with
      | nil => simp [isStartOf] at h
      | cons b bs =>
          rw [isStartOf, Bool.and_eq_true, decide_eq_true_eq] at h
          obtain ⟨rfl, h2⟩ := h
          obtain ⟨t, ht⟩ := ih h2
          exact ⟨t, by rw [ht]; rfl⟩

theorem strEndsWith_exists {s suf : String} (h : strEndsWith s suf = true) :
    ∃ t : List Char, s.data = t ++ suf.data := by
  obtain ⟨t, ht⟩ := exists_of_isStartOf h
  refine ⟨t.reverse, ?_⟩
  have := congrArg List.reverse ht
  simpa using this

theorem lowKey_of_lowEnds {s suf : String}
    (h : strEndsWith (strToLower s) suf = true) (hs : suf.data ≠ []) :
    lowKey s = (suf.data.reverse).head? := by
  obtain ⟨t, ht⟩ := strEndsWith_exists h
  unfold lowKey
  rw [ht, List.reverse_append]
  exact head?_append_left _ _ (by simpa using hs)

theorem lowKey_of_endsWith {s suf : String}
    (h : strEndsWith s suf = true) (hs : suf.data ≠ []) :
    lowKey s = lowKey suf := by
  obtain ⟨t, ht⟩ := strEndsWith_exists h
  unfold lowKey strToLower
  rw [show ((⟨s.data.map Char.toLower⟩ : String)).data = s.data.map Char.toLower from rfl,
      ht, List.map_append, List.reverse_append]
  exact head?_append_left _ _ (by simpa using hs)

theorem ne_of_lowKey {p q : FPath} (h : lowKey p.name ≠ lowKey q.name) : p ≠ q :=
  fun e => h (by rw [e])

theorem FPath.child_name (p : FPath) (s : String) : (FPath.child p s).name = s := by
  simp [FPath.child, FPath.name]

theorem FPath.child_parent (p : FPath) (s : String) : (FPath.child p s).parent = p := by
  cases p with
  | mk parts => simp [FPath.child, FPath.parent, List.dropLast_concat]

theorem withSuffix_name (p : FPath) (suf : String) :
    (withSuffix p suf).name = nameStem p.name ++ suf := by
  rw [withSuffix, FPath.child_name]

/-! ## lowKey values of the distinguished path families -/

theorem lowKey_of_raw_lis {s : String} (h : strEndsWith s ".lis" = true) :
    lowKey s = some 's' := by
  rw [lowKey_of_endsWith h (by decide)]; decide

theorem lowKey_of_raw_LIS {s : String} (h : strEndsWith s ".LIS" = true) :
    lowKey s = some 's' := by
  rw [lowKey_of_endsWith h (by decide)]; decide

theorem lowKey_of_low_dbg {s : String} (h : strEndsWith (strToLower s) ".dbg" = true) :
    lowKey s = some 'g' := by
  rw [lowKey_of_lowEnds h (by decide)]; decide

theorem lowKey_of_low_tmp {s : String} (h : strEndsWith (strToLower s) ".tmp" = true) :
    lowKey s = some 'p' := by
  rw [lowKey_of_lowEnds h (by decide)]; decide

theorem lowKey_of_low_bin {s : String} (h : strEndsWith (strToLower s) ".bin" = true) :
    lowKey s = some 'n' := by
  rw [lowKey_of_lowEnds h (by decide)]; decide

theorem tempAtp_lowKey (env : RunEnv) : lowKey (tempAtp env).name = some 'p' := by
  rw [tempAtp, withSuffix_name, lowKey_append _ _ (by decide)]; decide

theorem newLisPath_lowKey (env : RunEnv) : lowKey (newLisPath env).name = some 's' := by
  rw [newLisPath, FPath.child_name, lowKey_append _ _ (by decide)]; decide

theorem newDbgPath_lowKey (env : RunEnv) : lowKey (newDbgPath env).name = some 'g' := by
  rw [newDbgPath, FPath.child_name, lowKey_append _ _ (by decide)]; decide

theorem logPathOf_lowKey (env : RunEnv) : lowKey (logPathOf env).name = some 'g' := by
  rw [logPathOf, FPath.child_name, lowKey_append _ _ (by decide)]; decide

/-! ## Extraction lemmas for the artifact searches -/

theorem findSome?_exists {α β : Type} {f : α → Option β} {l : List α} {b : β}
    (h : l.findSome? f = some b) : ∃ a ∈ l, f a = some b := by
  induction l with
  | nil => simp [List.findSome?] at h
  | cons a t ih =>
      rw [List.findSome?_cons] at h
      cases hfa : f a with
      | some b2 =>
          rw [hfa] at h
          exact ⟨a, List.mem_cons_self a t, by rw [hfa]; exact h⟩
      | none =>
          rw [hfa] at h
          obtain ⟨x, hx, hfx⟩ := ih h
          exact ⟨x, List.mem_cons_of_mem a hx, hfx⟩

theorem fsExists_of_mem (fs : FS) (pr : FPath × Nat) (h : pr ∈ fs) :
    fsExists fs pr.1 = true := by
  unfold fsExists fsLookup
  cases hf : fs.find? (fun x => decide (x.1 = pr.1)) with
  | none => exact absurd (by simp) (List.find?_eq_none.mp hf pr h)
  | some x => rfl

theorem globLis_mem {fs : FS} {d : FPath} {p : FPath} (h : p ∈ globLis fs d) :
    lowKey p.name = some 's' ∧ fsExists fs p = true := by
  rw [globLis, List.mem_append] at h
  rcases h with h | h
  all_goals
    obtain ⟨pr, hpr, rfl⟩ := List.mem_map.mp h
  all_goals
    rw [List.mem_filter] at hpr
  all_goals
    obtain ⟨hmem, hcond⟩ := hpr
  all_goals
    rw [Bool.and_eq_true] at hcond
  · exact ⟨lowKey_of_raw_lis hcond.2, fsExists_of_mem fs pr hmem⟩
  · exact ⟨lowKey_of_raw_LIS hcond.2, fsExists_of_mem fs pr hmem⟩

theorem lisFound_facts {env : RunEnv} {p : FPath} (h : lisFound env = some p) :
    lowKey p.name = some 's' ∧ fsExists (fsAfter env) p = true := by
  rw [lisFound] at h
  cases hd : lisDirect env with
  | some c =>
      rw [hd] at h
      injection h with h
      subst h
      have hmem := List.mem_of_find?_eq_some hd
      have hpred := List.find?_some hd
      refine ⟨?_, hpred⟩
      simp only [lisCandidates, List.mem_cons, List.mem_singleton] at hmem
      rcases hmem with rfl | rfl | hfalse
      · rw [withSuffix_name, lowKey_append _ _ (by decide)]; decide
      · rw [withSuffix_name, lowKey_append _ _ (by decide)]; decide
      · simp at hfalse
  | none =>
      rw [hd] at h
      obtain ⟨d, _, hfind⟩ := findSome?_exists h
      exact globLis_mem (List.mem_of_find?_eq_some hfind)

theorem findDbg_facts {env : RunEnv} {fsCur : FS} {dp : FPath}
    (h : findDbg env fsCur = some dp) : lowKey dp.name = some 'g' := by
  obtain ⟨pr, _, hf⟩ := findSome?_exists h
  cases hfind : pr.2.find?
      (fun fname => isDbgMatch env fname && fsExists fsCur (pr.1.child fname)) with
  | none => rw [hfind] at hf; cases hf
  | some fname =>
      rw [hfind] at hf
      injection hf with hf
      subst hf
      have hpred := List.find?_some hfind
      rw [Bool.and_eq_true] at hpred
      have hdbg : strEndsWith (strToLower fname) ".dbg" = true := by
        have := hpred.1
        rw [isDbgMatch, Bool.and_eq_true] at this
        exact this.1
      rw [FPath.child_name]
      exact lowKey_of_low_dbg hdbg

theorem tmpTargets_lowKey {env : RunEnv} {q : FPath} (h : q ∈ tmpTargets env) :
    lowKey q.name = some 'p' ∨ lowKey q.name = some 'n' := by
  rw [tmpTargets, List.mem_flatMap] at h
  obtain ⟨pr, _, hq⟩ := h
  obtain ⟨n, hn, rfl⟩ := List.mem_map.mp hq
  rw [List.mem_filter] at hn
  have htmp := hn.2
  rw [isTmpName, Bool.or_eq_true] at htmp
  rw [FPath.child_name]
  rcases htmp with h1 | h1
  · exact Or.inl (lowKey_of_low_tmp h1)
  · exact Or.inr (lowKey_of_low_bin h1)

/-! ## Lookup preservation through the finalizer steps -/

theorem moveDbgStep_lookup (env : RunEnv) (fsCur : FS) (q : FPath)
    (hq : lowKey q.name ≠ some 'g') :
    fsLookup (moveDbgStep env fsCur).1 q = fsLookup fsCur q := by
  rw [moveDbgStep]
  cases hd : findDbg env fsCur with
  | none => rfl
  | some dp =>
      have hdp := findDbg_facts hd
      cases hok : env.moveDbgOk with
      | false => simp [hok]
      | true =>
          simp only [hok, if_true]
          rw [fsMove, fsLookup_insert_ne _ _ _ _
            (ne_of_lowKey (by rw [newDbgPath_lowKey]; exact hq))]
          exact fsLookup_erase_ne _ _ _ (ne_of_lowKey (by rw [hdp]; exact hq))

theorem logCleanupFinish_lookup (env : RunEnv) (fsCur : FS) (lines : List String)
    (q : FPath) (hg : lowKey q.name ≠ some 'g') (hp : lowKey q.name ≠ some 'p')
    (hn : lowKey q.name ≠ some 'n') :
    fsLookup (logCleanupFinish env fsCur lines).1 q = fsLookup fsCur q := by
  have hts : ∀ t ∈ tmpTargets env, t ≠ q := by
    intro t ht e
    rcases tmpTargets_lowKey ht with h1 | h1
    · exact hp (by rw [← e]; exact h1)
    · exact hn (by rw [← e]; exact h1)
  have hlog : q ≠ logPathOf env :=
    ne_of_lowKey (by rw [logPathOf_lowKey]; exact hg)
  by_cases hempty : tmpTargets env = []
  · simp only [logCleanupFinish, hempty, if_pos]
    rw [fsLookup_cleanup_of_ne _ _ _ (fun t ht => absurd ht (List.not_mem_nil t))]
    exact fsLookup_insert_ne _ _ _ _ hlog
  · simp only [logCleanupFinish, hempty, if_neg, if_false]
    rw [fsLookup_insert_ne _ _ _ _ hlog,
        fsLookup_cleanup_of_ne _ _ _ hts]
    exact fsLookup_insert_ne _ _ _ _ hlog

theorem logCleanupFinish_logfile (env : RunEnv) (fsCur : FS) (lines : List String) :
    fsLookup (logCleanupFinish env fsCur lines).1 (logPathOf env)
      = some (linesLen (logCleanupFinish env fsCur lines).2) := by
  by_cases hempty : tmpTargets env = []
  · simp only [logCleanupFinish, hempty, if_pos]
    exact fsLookup_insert_self _ _ _
  · simp only [logCleanupFinish, hempty, if_neg, if_false]
    exact fsLookup_insert_self _ _ _

/-! ## Facts about the terminal branches -/

theorem salvageResult_ret (env : RunEnv) (p : FPath) :
    (salvageResult env p).ret = some (if env.moveLisOk then newLisPath env else p) := rfl

theorem salvageResult_status (env : RunEnv) (p : FPath) :
    (salvageResult env p).status = some RunStatus.timeoutWithLis := rfl

theorem salvageResult_fs_lookup (env : RunEnv) (p : FPath)
    (hp : lowKey p.name = some 's') (hex : fsExists (fsAfter env) p = true) :
    fsLookup (salvageResult env p).fs (if env.moveLisOk then newLisPath env else p)
      = some (fsSize (fsAfter env) p) := by
  have hefflow : lowKey (if env.moveLisOk then newLisPath env else p).name = some 's' := by
    cases hok : env.moveLisOk
    · simpa [hok] using hp
    · simpa [hok] using newLisPath_lowKey env
  simp only [salvageResult]
  rw [fsLookup_erase_ne _ _ _
        (ne_of_lowKey (by rw [hefflow, tempAtp_lowKey]; decide)),
      logCleanupFinish_lookup _ _ _ _
        (by rw [hefflow]; decide) (by rw [hefflow]; decide) (by rw [hefflow]; decide),
      moveDbgStep_lookup _ _ _ (by rw [hefflow]; decide)]
  cases hok : env.moveLisOk
  · simp only [hok, Bool.false_eq_true, if_false]
    exact fsLookup_eq_size_of_exists _ _ hex
  · simp only [hok, if_true]
    rw [fsMove]
    exact fsLookup_insert_self _ _ _

theorem successResult_moveFail (env : RunEnv) (p : FPath) (hok : env.moveLisOk = false) :
    successResult env p = exceptResult env (fsAfter env) := by
  simp [successResult, hok]

theorem successResult_ret (env : RunEnv) (p : FPath) (hok : env.moveLisOk = true) :
    (successResult env p).ret = some (newLisPath env) := by
  simp only [successResult, hok, if_true]

theorem successResult_status (env : RunEnv) (p : FPath) (hok : env.moveLisOk = true) :
    (successResult env p).status = some RunStatus.success := by
  simp only [successResult, hok, if_true]

theorem successResult_fs_lookup (env : RunEnv) (p : FPath) (hok : env.moveLisOk = true) :
    fsLookup (successResult env p).fs (newLisPath env)
      = some (fsSize (fsAfter env) p) := by
  have hlow := newLisPath_lowKey env
  simp only [successResult, hok, if_true]
  rw [fsLookup_erase_ne _ _ _
        (ne_of_lowKey (by rw [hlow, tempAtp_lowKey]; decide)),
      logCleanupFinish_lookup _ _ _ _
        (by rw [hlow]; decide) (by rw [hlow]; decide) (by rw [hlow]; decide),
      moveDbgStep_lookup _ _ _ (by rw [hlow]; decide),
      fsMove]
  exact fsLookup_insert_self _ _ _

theorem errorResult_ret (env : RunEnv) (z : Option FPath) :
    (errorResult env z).ret = none := rfl

theorem errorResult_status (env : RunEnv) (z : Option FPath) :
    (errorResult env z).status = some RunStatus.error := rfl

theorem errorResult_lookup_deleted (env : RunEnv) (p : FPath)
    (hp : lowKey p.name = some 's') :
    fsLookup (errorResult env (some p)).fs p = none := by
  simp only [errorResult]
  rw [fsLookup_insert_ne _ _ _ _
        (ne_of_lowKey (by rw [hp, logPathOf_lowKey]; decide))]
  exact fsLookup_erase_self _ _

theorem errorResult_logfile (env : RunEnv) (z : Option FPath) :
    fsLookup (errorResult env z).fs (logPathOf env)
      = some (linesLen (commonHead env "error" ++ streamLines env)) := by
  simp only [errorResult]
  exact fsLookup_insert_self _ _ _

theorem emptyLisResult_ret (env : RunEnv) (p : FPath) :
    (emptyLisResult env p).ret = none := rfl

theorem emptyLisResult_status (env : RunEnv) (p : FPath) :
    (emptyLisResult env p).status = some RunStatus.emptyLis := rfl

theorem emptyLisResult_lookup_deleted (env : RunEnv) (p : FPath)
    (hp : lowKey p.name = some 's') :
    fsLookup (emptyLisResult env p).fs p = none := by
  simp only [emptyLisResult]
  rw [fsLookup_insert_ne _ _ _ _
        (ne_of_lowKey (by rw [hp, logPathOf_lowKey]; decide))]
  exact fsLookup_erase_self _ _

/-! ## Dispatch lemmas: which branch `classify` and `run_simulation` take -/

theorem classify_raise (env : RunEnv) (h : env.raiseUnexpected = true) :
    classify env = exceptResult env (fsAfter env) := by
  simp [classify, h]

theorem classify_salvage (env : RunEnv) (p : FPath)
    (hraise : env.raiseUnexpected = false) (hrc : rcOf env ≠ 0)
    (hl : lisFound env = some p) (hs : 0 < fsSize (fsAfter env) p) :
    classify env = salvageResult env p := by
  simp [classify, hraise, hrc, hl, hs]

theorem classify_error_zero (env : RunEnv) (p : FPath)
    (hraise : env.raiseUnexpected = false) (hrc : rcOf env ≠ 0)
    (hl : lisFound env = some p) (hs : ¬ 0 < fsSize (fsAfter env) p) :
    classify env = errorResult env (some p) := by
  simp [classify, hraise, hrc, hl, hs]

theorem classify_error_none (env : RunEnv)
    (hraise : env.raiseUnexpected = false) (hrc : rcOf env ≠ 0)
    (hl : lisFound env = none) :
    classify env = errorResult env none := by
  simp [classify, hraise, hrc, hl]

theorem classify_success (env : RunEnv) (p : FPath)
    (hraise : env.raiseUnexpected = false) (hrc : rcOf env = 0)
    (hl : lisFound env = some p) (hs : 0 < fsSize (fsAfter env) p) :
    classify env = successResult env p := by
  simp [classify, hraise, hrc, hl, Nat.pos_iff_ne_zero.mp hs]

theorem classify_empty (env : RunEnv) (p : FPath)
    (hraise : env.raiseUnexpected = false) (hrc : rcOf env = 0)
    (hl : lisFound env = some p) (hs : fsSize (fsAfter env) p = 0) :
    classify env = emptyLisResult env p := by
  simp [classify, hraise, hrc, hl, hs]

theorem classify_noLis (env : RunEnv)
    (hraise : env.raiseUnexpected = false) (hrc : rcOf env = 0)
    (hl : lisFound env = none) :
    classify env = noLisResult env := by
  simp [classify, hraise, hrc, hl]

theorem run_main (env : RunEnv) (hg : guardsOk env = true) (hw : wineEarly env = false) :
    run_simulation env
      = { classify env with fs := fsErase (classify env).fs (tempAtp env) } := by
  simp [run_simulation, runCore, hg, hw]

theorem run_ok (env : RunEnv) (hg : guardsOk env = true) :
    run_simulation env
      = { runCore env with fs := fsErase (runCore env).fs (tempAtp env) } := by
  simp [run_simulation, hg]

theorem run_guardFail (env : RunEnv) (h : guardsOk env = false) :
    run_simulation env
      = { ret := none, fs := env.fs0, status := none, effOutDir := none,
          logPath := none, logLines := [], timeoutUsed := none } := by
  simp [run_simulation, h]

theorem run_wine (env : RunEnv) (hg : guardsOk env = true) (hw : wineEarly env = true) :
    run_simulation env
      = { ret := none, fs := fsErase (fsPrepared env) (tempAtp env), status := none,
          effOutDir := some (effOut env), logPath := none, logLines := [],
          timeoutUsed := none } := by
  simp [run_simulation, runCore, hg, hw]

theorem fsLookup_erase_of_none (fs : FS) (t q : FPath) (h : fsLookup fs q = none) :
    fsLookup (fsErase fs t) q = none := by
  by_cases hq : q = t
  · rw [hq]; exact fsLookup_erase_self fs t
  · rw [fsLookup_erase_ne fs t q hq]; exact h

theorem logCleanupFinish_tmp_none (env : RunEnv) (fsCur : FS) (lines : List String)
    (q : FPath) (hq : q ∈ tmpTargets env) :
    fsLookup (logCleanupFinish env fsCur lines).1 q = none := by
  have hlog : q ≠ logPathOf env := by
    rcases tmpTargets_lowKey hq with h1 | h1
    · exact ne_of_lowKey (by rw [h1, logPathOf_lowKey]; decide)
    · exact ne_of_lowKey (by rw [h1, logPathOf_lowKey]; decide)
  by_cases hempty : tmpTargets env = []
  · rw [hempty] at hq; cases hq
  · simp only [logCleanupFinish, hempty, if_neg, if_false]
    rw [fsLookup_insert_ne _ _ _ _ hlog]
    exact fsLookup_cleanup_mem _ _ _ hq

/-- The main-path branch disjunction: with the guards passed, no Wine early
return and no unexpected exception, a run either salvages, succeeds, or ends
in one of the `None`-returning outcomes. -/
theorem run_branches (env : RunEnv) (hg : guardsOk env = true)
    (hw : wineEarly env = false) (hraise : env.raiseUnexpected = false) :
    (∃ p, lisFound env = some p ∧ rcOf env ≠ 0 ∧ 0 < fsSize (fsAfter env) p ∧
        run_simulation env
          = { salvageResult env p with
              fs := fsErase (salvageResult env p).fs (tempAtp env) }) ∨
    (∃ p, lisFound env = some p ∧ rcOf env = 0 ∧ 0 < fsSize (fsAfter env) p ∧
        env.moveLisOk = true ∧
        run_simulation env
          = { successResult env p with
              fs := fsErase (successResult env p).fs (tempAtp env) }) ∨
    ((run_simulation env).ret = none ∧
      ((run_simulation env).status = none ∨
       (run_simulation env).status = some RunStatus.error ∨
       (run_simulation env).status = some RunStatus.emptyLis ∨
       (run_simulation env).status = some RunStatus.noLis)) := by
  have hrm := run_main env hg hw
  by_cases hrc : rcOf env ≠ 0
  · cases hl : lisFound env with
    | none =>
        refine Or.inr (Or.inr ?_)
        rw [hrm, classify_error_none env hraise hrc hl]
        exact ⟨rfl, Or.inr (Or.inl rfl)⟩
    | some p =>
        by_cases hs : 0 < fsSize (fsAfter env) p
        · exact Or.inl ⟨p, rfl, hrc, hs,
            by rw [hrm, classify_salvage env p hraise hrc hl hs]⟩
        · refine Or.inr (Or.inr ?_)
          rw [hrm, classify_error_zero env p hraise hrc hl hs]
          exact ⟨rfl, Or.inr (Or.inl rfl)⟩
  · have hrc0 : rcOf env = 0 := not_ne_iff.mp hrc
    cases hl : lisFound env with
    | none =>
        refine Or.inr (Or.inr ?_)
        rw [hrm, classify_noLis env hraise hrc0 hl]
        exact ⟨rfl, Or.inr (Or.inr (Or.inr rfl))⟩
    | some p =>
        by_cases hsz : fsSize (fsAfter env) p = 0
        · refine Or.inr (Or.inr ?_)
          rw [hrm, classify_empty env p hraise hrc0 hl hsz]
          exact ⟨rfl, Or.inr (Or.inr (Or.inl rfl))⟩
        · cases hok : env.moveLisOk with
          | false =>
              refine Or.inr (Or.inr ?_)
              rw [hrm, classify_success env p hraise hrc0 hl (Nat.pos_of_ne_zero hsz),
                  successResult_moveFail env p hok]
              exact ⟨rfl, Or.inl rfl⟩
          | true =>
              exact Or.inr (Or.inl ⟨p, rfl, hrc0, Nat.pos_of_ne_zero hsz, rfl,
                by rw [hrm, classify_success env p hraise hrc0 hl (Nat.pos_of_ne_zero hsz)]⟩)

theorem salvageResult_fs_tmp_none (env : RunEnv) (p q : FPath)
    (hq : q ∈ tmpTargets env) : fsLookup (salvageResult env p).fs q = none := by
  simp only [salvageResult]
  exact fsLookup_erase_of_none _ _ _ (logCleanupFinish_tmp_none env _ _ q hq)

theorem successResult_fs_tmp_none (env : RunEnv) (p q : FPath)
    (hok : env.moveLisOk = true) (hq : q ∈ tmpTargets env) :
    fsLookup (successResult env p).fs q = none := by
  simp only [successResult, hok, if_true]
  exact fsLookup_erase_of_none _ _ _ (logCleanupFinish_tmp_none env _ _ q hq)

/-- The fields of the classified outcome that are the same on every branch:
the recorded timeout, the effective output directory, and the shape of the
log path. -/
theorem classify_fixed_fields (env : RunEnv) :
    (classify env).timeoutUsed = some (effectiveTimeout env.envTimeout) ∧
    (classify env).effOutDir = some (effOut env) ∧
    ((classify env).logPath = none ∨ (classify env).logPath = some (logPathOf env)) := by
  by_cases h1 : env.raiseUnexpected = true
  · rw [classify_raise env h1]
    exact ⟨rfl, rfl, Or.inl rfl⟩
  · have h1f : env.raiseUnexpected = false := by
      revert h1; cases env.raiseUnexpected <;> simp
    by_cases h2 : rcOf env ≠ 0
    · cases hl : lisFound env with
      | none =>
          rw [classify_error_none env h1f h2 hl]
          exact ⟨rfl, rfl, Or.inr rfl⟩
      | some p =>
          by_cases h3 : 0 < fsSize (fsAfter env) p
          · rw [classify_salvage env p h1f h2 hl h3]
            exact ⟨rfl, rfl, Or.inr rfl⟩
          · rw [classify_error_zero env p h1f h2 hl h3]
            exact ⟨rfl, rfl, Or.inr rfl⟩
    · have h2z : rcOf env = 0 := not_ne_iff.mp h2
      cases hl : lisFound env with
      | none =>
          rw [classify_noLis env h1f h2z hl]
          exact ⟨rfl, rfl, Or.inr rfl⟩
      | some p =>
          by_cases h3 : fsSize (fsAfter env) p = 0
          · rw [classify_empty env p h1f h2z hl h3]
            exact ⟨rfl, rfl, Or.inr rfl⟩
          · cases h4 : env.moveLisOk with
            | false =>
                rw [classify_success env p h1f h2z hl (Nat.pos_of_ne_zero h3),
                    successResult_moveFail env p h4]
                exact ⟨rfl, rfl, Or.inl rfl⟩
            | true =>
                rw [classify_success env p h1f h2z hl (Nat.pos_of_ne_zero h3)]
                simp only [successResult, h4, if_true]
                exact ⟨trivial, trivial, Or.inr trivial⟩

theorem run_effOutDir (env : RunEnv) (hg : guardsOk env = true) :
    (run_simulation env).effOutDir = some (effOut env) := by
  cases hw : wineEarly env with
  | false =>
      rw [run_main env hg hw]
      exact (classify_fixed_fields env).2.1
  | true => rw [run_wine env hg hw]

theorem run_logPath_cases (env : RunEnv) (hg : guardsOk env = true) :
    (run_simulation env).logPath = none ∨
    (run_simulation env).logPath = some (logPathOf env) := by
  cases hw : wineEarly env with
  | false =>
      rw [run_main env hg hw]
      exact (classify_fixed_fields env).2.2
  | true => rw [run_wine env hg hw]; exact Or.inl rfl

/-! ## Membership lemmas for the sorted-set operations -/

theorem mem_insSorted {x s : String} {l : List String} (h : x ∈ insSorted s l) :
    x = s ∨ x ∈ l := by
  induction l with
  | nil =>
      rw [insSorted] at h
      exact Or.inl (List.mem_singleton.mp h)
  | cons t ts ih =>
      rw [insSorted] at h
      by_cases ht : t < s
      · rw [if_pos ht] at h
        rcases List.mem_cons.mp h with rfl | h2
        · exact Or.inr (List.mem_cons_self _ _)
        · rcases ih h2 with h3 | h3
          · exact Or.inl h3
          · exact Or.inr (List.mem_cons_of_mem _ h3)
      · rw [if_neg ht] at h
        rcases List.mem_cons.mp h with rfl | h2
        · exact Or.inl rfl
        · exact Or.inr h2

theorem mem_sortStrs {x : String} {l : List String} (h : x ∈ sortStrs l) : x ∈ l := by
  induction l with
  | nil => cases h
  | cons a t ih =>
      rw [show sortStrs (a :: t) = insSorted a (sortStrs t) from rfl] at h
      rcases mem_insSorted h with rfl | h2
      · exact List.mem_cons_self _ _
      · exact List.mem_cons_of_mem _ (ih h2)

theorem dedupStrs_cons (a : String) (t : List String) :
    dedupStrs (a :: t) = if a ∈ dedupStrs t then dedupStrs t else a :: dedupStrs t := rfl

theorem mem_dedupStrs {x : String} {l : List String} (h : x ∈ dedupStrs l) : x ∈ l := by
  induction l with
  | nil => cases h
  | cons a t ih =>
      rw [dedupStrs_cons] at h
      by_cases ha : a ∈ dedupStrs t
      · rw [if_pos ha] at h
        exact List.mem_cons_of_mem _ (ih h)
      · rw [if_neg ha] at h
        rcases List.mem_cons.mp h with rfl | h2
        · exact List.mem_cons_self _ _
        · exact List.mem_cons_of_mem _ (ih h2)

/-! ## Concrete run environments used for witnesses and counterexamples -/

def dirHome : FPath := ⟨["home"]⟩

def dirSolver : FPath := ⟨["opt", "atp"]⟩

def dirOut : FPath := ⟨["out"]⟩

def lisHome : FPath := ⟨["home", "case1.lis"]⟩

def tmpSolver : FPath := ⟨["opt", "atp", "junk.tmp"]⟩

/-- A plain run: native solver at `/opt/atp/tpbig`, deck at
`/home/case1.acp`, explicit output directory `/out`. -/
def baseEnv : RunEnv :=
  { acpPath := ⟨["home", "case1.acp"]⟩, outputDir := some dirOut,
    moduleDir := ⟨["app"]⟩, atpdrawPath := ⟨["opt", "atp", "tpbig"]⟩,
    resolvedSolver := ⟨["opt", "atp", "tpbig"]⟩, solverExists := true,
    isWindows := false, wineAvailable := false, fs0 := [],
    existingDirs := [dirSolver, dirHome], atpSize := 10, copyDeckOk := true,
    includeCopies := [], solverCreated := [], proc := ProcOutcome.completed 0,
    envTimeout := none, stdoutStr := "", stderrStr := "",
    ts1 := "20260101_000000", ts2 := "20260101_000001",
    moveLisOk := true, moveDbgOk := true, raiseUnexpected := false,
    atpdrawFound := true, acpExists := true, extractOk := true }

/-- Clean exit; the solver produced a 120-byte `case1.lis` and a scratch
`junk.tmp`. -/
def envSuccess : RunEnv :=
  { baseEnv with solverCreated := [(lisHome, 120), (tmpSolver, 3)] }

/-- Same artifacts, but the process was killed on timeout. -/
def envSalvage : RunEnv := { envSuccess with proc := ProcOutcome.timedOut }

/-- Timeout salvage where the relocation move fails. -/
def envSalvageNoMove : RunEnv := { envSalvage with moveLisOk := false }

/-- Clean exit with a usable result, but the relocation move fails. -/
def envMoveFail : RunEnv := { envSuccess with moveLisOk := false }

/-- Exit code 1 with no result file; only scratch `junk.tmp` appeared. -/
def envErrorTmp : RunEnv :=
  { baseEnv with proc := ProcOutcome.completed 1, solverCreated := [(tmpSolver, 3)] }

/-- Clean exit, but the produced `case1.lis` is empty. -/
def envEmpty : RunEnv := { baseEnv with solverCreated := [(lisHome, 0)] }

/-- The solver produced nothing, but a 77-byte `case1.lis` from a previous run
already sat in the deck's directory before launch. -/
def envStale : RunEnv := { baseEnv with fs0 := [(lisHome, 77)] }

/-- A run with `ATP_TIMEOUT=42` set. -/
def envTimeoutVar : RunEnv := { envSuccess with envTimeout := some "42" }

/-- No `output_dir` argument; the deck lives in a directory named `ACP`. -/
def envAcpDir : RunEnv :=
  { baseEnv with
    acpPath := ⟨["proj", "ACP", "case1.acp"]⟩
    outputDir := none
    existingDirs := [dirSolver, ⟨["proj", "ACP"]⟩] }

/-! ## Claims -/

/-- Claim C1, amended (corrected): on a non-zero exit code (the real code, the
timeout sentinel `-9`, or the spawn-failure sentinel `-1`) with a located
result file of size > 0, the outcome is `timeout_with_lis` and a non-`None`
path is returned; the file is relocated to
`<effective-output-dir>/<deck-stem>_<timestamp>.lis` when the move succeeds,
and otherwise is returned at its original, un-relocated location. -/
theorem C1_salvage_kept_result (env : RunEnv) (p : FPath)
    (hg : guardsOk env = true) (hw : wineEarly env = false)
    (hraise : env.raiseUnexpected = false) (hrc : rcOf env ≠ 0)
    (hl : lisFound env = some p) (hs : 0 < fsSize (fsAfter env) p) :
    (run_simulation env).status = some RunStatus.timeoutWithLis ∧
    (run_simulation env).ret
      = some (if env.moveLisOk then newLisPath env else p) ∧
    ∃ n, fsLookup (run_simulation env).fs
        (if env.moveLisOk then newLisPath env else p) = some n ∧ 0 < n := by
  rw [run_main env hg hw, classify_salvage env p hraise hrc hl hs]
  have hfacts := lisFound_facts hl
  have heff : lowKey (if env.moveLisOk then newLisPath env else p).name = some 's' := by
    cases hok : env.moveLisOk
    · simpa [hok] using hfacts.1
    · simpa [hok] using newLisPath_lowKey env
  refine ⟨rfl, rfl, fsSize (fsAfter env) p, ?_, hs⟩
  show fsLookup (fsErase (salvageResult env p).fs (tempAtp env)) _ = _
  rw [fsLookup_erase_ne _ _ _
        (ne_of_lowKey (by rw [heff, tempAtp_lowKey]; decide))]
  exact salvageResult_fs_lookup env p hfacts.1 hfacts.2

/-- Witness for C1: a timed-out run whose 120-byte `case1.lis` is salvaged. -/
theorem C1_salvage_kept_result_witness :
    (guardsOk envSalvage = true ∧ rcOf envSalvage ≠ 0 ∧
      lisFound envSalvage = some lisHome ∧ 0 < fsSize (fsAfter envSalvage) lisHome) ∧
    ((run_simulation envSalvage).status = some RunStatus.timeoutWithLis ∧
     (run_simulation envSalvage).ret
       = some (if envSalvage.moveLisOk then newLisPath envSalvage else lisHome) ∧
     ∃ n, fsLookup (run_simulation envSalvage).fs
         (if envSalvage.moveLisOk then newLisPath envSalvage else lisHome) = some n ∧ 0 < n) :=
  ⟨⟨by decide, by decide, by decide, by decide⟩,
   C1_salvage_kept_result envSalvage lisHome (by decide) (by decide) (by decide)
     (by decide) (by decide) (by decide)⟩

/-- Counterexample to Claim C1 as stated: in a timed-out run whose relocation
move fails, the salvaged file is NOT relocated into the effective output
directory — nothing exists at the claimed destination name — yet a non-`None`
path (the original location) is still returned. -/
theorem C1_relocation_counterexample :
    rcOf envSalvageNoMove ≠ 0 ∧
    lisFound envSalvageNoMove = some lisHome ∧
    fsSize (fsAfter envSalvageNoMove) lisHome = 120 ∧
    (run_simulation envSalvageNoMove).status = some RunStatus.timeoutWithLis ∧
    (run_simulation envSalvageNoMove).ret = some lisHome ∧
    lisHome ≠ newLisPath envSalvageNoMove ∧
    fsLookup (run_simulation envSalvageNoMove).fs (newLisPath envSalvageNoMove) = none := by
  decide

/-- Claim C2, amended (corrected): once the scratch `.atp` deck next to the
`.acp` has been created (the entry guards passed), it is deleted on every exit
path — the `finally` block guarantees it.  However, the sanitized scratch copy
of the deck placed in the solver's working directory is never deleted (see the
counterexample), so the claim's "no run leaves a scratch deck file behind in
the solver's working directory" does not hold of the code. -/
theorem C2_temp_deck_always_deleted (env : RunEnv) (hg : guardsOk env = true) :
    fsLookup (run_simulation env).fs (tempAtp env) = none := by
  rw [run_ok env hg]
  exact fsLookup_erase_self _ _

/-- Witness for C2: the scratch `.atp` is gone after a successful run. -/
theorem C2_temp_deck_always_deleted_witness :
    guardsOk envSuccess = true ∧
    fsLookup (run_simulation envSuccess).fs (tempAtp envSuccess) = none :=
  ⟨by decide, C2_temp_deck_always_deleted envSuccess (by decide)⟩

/-- Counterexample to Claim C2 as stated: a successful run leaves the
sanitized scratch copy of the deck (`/opt/atp/case1.atp`, a file distinct from
the deleted `temp_atp`) behind in the solver's working directory. -/
theorem C2_solver_copy_counterexample :
    (run_simulation envSuccess).status = some RunStatus.success ∧
    deckInSolver envSuccess = FPath.mk ["opt", "atp", "case1.atp"] ∧
    (deckInSolver envSuccess).parent = runCwd envSuccess ∧
    deckInSolver envSuccess ≠ tempAtp envSuccess ∧
    fsLookup (run_simulation envSuccess).fs (deckInSolver envSuccess) = some 10 := by
  decide

/-- Claim C3, amended (corrected): each per-directory new-files set contains
only entry names absent from that directory's pre-launch snapshot.  The
result-file search, however, is NOT restricted to those new entries: both the
fixed candidate paths and the fallback directory scan consider pre-existing
files, so a stale result from a prior run can be selected (see the
counterexample). -/
theorem C3_new_files_not_preexisting (env : RunEnv) (d : FPath)
    (ns : List String) (n : String) (hmem : (d, ns) ∈ newPerDir env)
    (hn : n ∈ ns) : ¬ n ∈ dirNames (fsPrepared env) d := by
  rw [newPerDir] at hmem
  obtain ⟨pr, hpr, heq⟩ := List.mem_map.mp hmem
  have hd : pr.1 = d := congrArg Prod.fst heq
  have hns : sortStrs (dedupStrs
      ((dirNames (fsAfter env) pr.1).filter (fun m => decide (m ∉ pr.2)))) = ns :=
    congrArg Prod.snd heq
  rw [beforeMap] at hpr
  obtain ⟨d2, _, heq2⟩ := List.mem_map.mp hpr
  have hpr2 : pr.2 = dirNames (fsPrepared env) pr.1 := by
    rw [← heq2]
  rw [← hns] at hn
  have hfil := mem_dedupStrs (mem_sortStrs hn)
  have hcond := (List.mem_filter.mp hfil).2
  rw [decide_eq_true_eq] at hcond
  rw [← hd, ← hpr2]
  exact hcond

/-- Witness for C3: in a run where the solver created `case1.lis` and
`junk.tmp`, each reported new name is indeed absent from the pre-launch
snapshot of its directory. -/
theorem C3_new_files_not_preexisting_witness :
    ((dirHome, ["case1.lis"]) ∈ newPerDir envSuccess ∧ "case1.lis" ∈ ["case1.lis"]) ∧
    ¬ "case1.lis" ∈ dirNames (fsPrepared envSuccess) dirHome :=
  ⟨⟨by decide, by decide⟩,
   C3_new_files_not_preexisting envSuccess dirHome ["case1.lis"] "case1.lis"
     (by decide) (by decide)⟩

/-- Counterexample to Claim C3 as stated: with a stale 77-byte `case1.lis`
already present before launch and a solver that created nothing, every
new-files set is empty, yet the stale file is selected as the run's result,
relocated and returned. -/
theorem C3_stale_result_counterexample :
    fsExists (fsPrepared envStale) lisHome = true ∧
    lisHome.name ∈ dirNames (fsPrepared envStale) dirHome ∧
    newPerDir envStale = [(dirSolver, []), (dirHome, [])] ∧
    lisFound envStale = some lisHome ∧
    (run_simulation envStale).status = some RunStatus.success ∧
    (run_simulation envStale).ret = some (newLisPath envStale) := by
  decide

/-- Claim C4, amended (corrected): on exit code 0 with a located result file
of size > 0, provided the relocation move succeeds, the outcome is `success`
and the returned path is `<effective-output-dir>/<deck-stem>_<ts>.lis`, which
exists in the final filesystem.  When the move raises, the exception escapes
to the outer handler and `None` is returned instead (see the
counterexample). -/
theorem C4_success_relocates (env : RunEnv) (p : FPath)
    (hg : guardsOk env = true) (hw : wineEarly env = false)
    (hraise : env.raiseUnexpected = false) (hrc : rcOf env = 0)
    (hl : lisFound env = some p) (hs : 0 < fsSize (fsAfter env) p)
    (hok : env.moveLisOk = true) :
    (run_simulation env).status = some RunStatus.success ∧
    (run_simulation env).ret = some (newLisPath env) ∧
    (newLisPath env).parent = effOut env ∧
    (newLisPath env).name = env.acpPath.stem ++ "_" ++ env.ts2 ++ ".lis" ∧
    ∃ n, fsLookup (run_simulation env).fs (newLisPath env) = some n ∧ 0 < n := by
  rw [run_main env hg hw, classify_success env p hraise hrc hl hs]
  refine ⟨successResult_status env p hok, successResult_ret env p hok,
    FPath.child_parent _ _, FPath.child_name _ _,
    fsSize (fsAfter env) p, ?_, hs⟩
  show fsLookup (fsErase (successResult env p).fs (tempAtp env)) _ = _
  rw [fsLookup_erase_ne _ _ _
        (ne_of_lowKey (by rw [newLisPath_lowKey, tempAtp_lowKey]; decide))]
  exact successResult_fs_lookup env p hok

/-- Witness for C4: the plain successful run relocates its 120-byte result. -/
theorem C4_success_relocates_witness :
    (guardsOk envSuccess = true ∧ rcOf envSuccess = 0 ∧
      lisFound envSuccess = some lisHome ∧ 0 < fsSize (fsAfter envSuccess) lisHome ∧
      envSuccess.moveLisOk = true) ∧
    ((run_simulation envSuccess).status = some RunStatus.success ∧
     (run_simulation envSuccess).ret = some (newLisPath envSuccess) ∧
     ∃ n, fsLookup (run_simulation envSuccess).fs (newLisPath envSuccess) = some n ∧ 0 < n) :=
  ⟨⟨by decide, by decide, by decide, by decide, by decide⟩,
   (by
     have h := C4_success_relocates envSuccess lisHome (by decide) (by decide)
       (by decide) (by decide) (by decide) (by decide) (by decide)
     exact ⟨h.1, h.2.1, h.2.2.2.2⟩)⟩

/-- Counterexample to Claim C4 as stated: exit code 0 with a usable 120-byte
result, but the relocation move fails — the run returns `None` with no
classified outcome instead of `success` with a destination path. -/
theorem C4_move_failure_counterexample :
    rcOf envMoveFail = 0 ∧
    lisFound envMoveFail = some lisHome ∧
    fsSize (fsAfter envMoveFail) lisHome = 120 ∧
    (run_simulation envMoveFail).ret = none ∧
    (run_simulation envMoveFail).status = none := by
  decide

/-- Claim C10 (confirmed): in the non-zero-exit salvage path, when the move of
the usable result into the effective output directory fails, the error is
swallowed: the run still reports `timeout_with_lis` and returns the file's
original, un-relocated path, where the file still resides. -/
theorem C10_salvage_move_swallowed (env : RunEnv) (p : FPath)
    (hg : guardsOk env = true) (hw : wineEarly env = false)
    (hraise : env.raiseUnexpected = false) (hrc : rcOf env ≠ 0)
    (hl : lisFound env = some p) (hs : 0 < fsSize (fsAfter env) p)
    (hfail : env.moveLisOk = false) :
    (run_simulation env).ret = some p ∧
    (run_simulation env).status = some RunStatus.timeoutWithLis ∧
    fsLookup (run_simulation env).fs p = some (fsSize (fsAfter env) p) := by
  rw [run_main env hg hw, classify_salvage env p hraise hrc hl hs]
  have hfacts := lisFound_facts hl
  refine ⟨?_, rfl, ?_⟩
  · have hr := salvageResult_ret env p
    simp only [hfail, Bool.false_eq_true, if_false] at hr
    exact hr
  · show fsLookup (fsErase (salvageResult env p).fs (tempAtp env)) _ = _
    rw [fsLookup_erase_ne _ _ _
          (ne_of_lowKey (by rw [hfacts.1, tempAtp_lowKey]; decide))]
    have hlk := salvageResult_fs_lookup env p hfacts.1 hfacts.2
    simp only [hfail, Bool.false_eq_true, if_false] at hlk
    exact hlk

/-- Witness for C10: the timed-out run with a failing move returns the
original `/home/case1.lis`, which is not in the destination directory. -/
theorem C10_salvage_move_swallowed_witness :
    (guardsOk envSalvageNoMove = true ∧ rcOf envSalvageNoMove ≠ 0 ∧
      lisFound envSalvageNoMove = some lisHome ∧
      0 < fsSize (fsAfter envSalvageNoMove) lisHome ∧
      envSalvageNoMove.moveLisOk = false ∧
      lisHome.parent ≠ effOut envSalvageNoMove) ∧
    ((run_simulation envSalvageNoMove).ret = some lisHome ∧
     (run_simulation envSalvageNoMove).status = some RunStatus.timeoutWithLis ∧
     fsLookup (run_simulation envSalvageNoMove).fs lisHome
       = some (fsSize (fsAfter envSalvageNoMove) lisHome)) :=
  ⟨⟨by decide, by decide, by decide, by decide, by decide, by decide⟩,
   C10_salvage_move_swallowed envSalvageNoMove lisHome (by decide) (by decide)
     (by decide) (by decide) (by decide) (by decide) (by decide)⟩

/-- Claim C5 (confirmed): on exit code 0 with a located result file of size 0,
the file is deleted, the outcome is `empty_lis`, and `None` is returned; and
in general, whenever `run_simulation` returns a path at all, the returned file
exists with size strictly greater than zero. -/
theorem C5_zero_byte_deleted_and_usable_only :
    (∀ env p, guardsOk env = true → wineEarly env = false →
      env.raiseUnexpected = false → rcOf env = 0 → lisFound env = some p →
      fsSize (fsAfter env) p = 0 →
      (run_simulation env).ret = none ∧
      (run_simulation env).status = some RunStatus.emptyLis ∧
      fsLookup (run_simulation env).fs p = none) ∧
    (∀ env q, (run_simulation env).ret = some q →
      ∃ n, fsLookup (run_simulation env).fs q = some n ∧ 0 < n) := by
  constructor
  · intro env p hg hw hraise hrc hl hsz
    rw [run_main env hg hw, classify_empty env p hraise hrc hl hsz]
    have hp := (lisFound_facts hl).1
    refine ⟨rfl, rfl, ?_⟩
    show fsLookup (fsErase (emptyLisResult env p).fs (tempAtp env)) p = none
    exact fsLookup_erase_of_none _ _ _ (emptyLisResult_lookup_deleted env p hp)
  · intro env q hret
    by_cases hg : guardsOk env = true
    · cases hw : wineEarly env with
      | true =>
          rw [run_wine env hg hw] at hret
          exact absurd hret (by simp)
      | false =>
          cases hraise : env.raiseUnexpected with
          | true =>
              rw [run_main env hg hw, classify_raise env hraise] at hret
              exact absurd hret (by simp [exceptResult])
          | false =>
              rcases run_branches env hg hw hraise with
                ⟨p, hl, hrc, hs, hrun⟩ | ⟨p, hl, hrc, hs, hok, hrun⟩ | ⟨hnone, _⟩
              · have hfacts := lisFound_facts hl
                have heff : lowKey
                    (if env.moveLisOk then newLisPath env else p).name = some 's' := by
                  cases hok2 : env.moveLisOk
                  · simpa [hok2] using hfacts.1
                  · simpa [hok2] using newLisPath_lowKey env
                have hret2 : (salvageResult env p).ret = some q := by
                  rw [hrun] at hret; exact hret
                rw [salvageResult_ret env p] at hret2
                injection hret2 with e
                refine ⟨fsSize (fsAfter env) p, ?_, hs⟩
                rw [hrun]
                show fsLookup (fsErase (salvageResult env p).fs (tempAtp env)) q = _
                rw [← e, fsLookup_erase_ne _ _ _
                      (ne_of_lowKey (by rw [heff, tempAtp_lowKey]; decide))]
                exact salvageResult_fs_lookup env p hfacts.1 hfacts.2
              · have hret2 : (successResult env p).ret = some q := by
                  rw [hrun] at hret; exact hret
                rw [successResult_ret env p hok] at hret2
                injection hret2 with e
                refine ⟨fsSize (fsAfter env) p, ?_, hs⟩
                rw [hrun]
                show fsLookup (fsErase (successResult env p).fs (tempAtp env)) q = _
                rw [← e, fsLookup_erase_ne _ _ _
                      (ne_of_lowKey (by rw [newLisPath_lowKey, tempAtp_lowKey]; decide))]
                exact successResult_fs_lookup env p hok
              · rw [hret] at hnone
                exact absurd hnone (by simp)
    · have hg2 : guardsOk env = false := by revert hg; cases guardsOk env <;> simp
      rw [run_guardFail env hg2] at hret
      exact absurd hret (by simp)

/-- Witness for C5: the run whose only `case1.lis` is empty deletes it,
classifies `empty_lis`, and returns `None`. -/
theorem C5_zero_byte_deleted_and_usable_only_witness :
    (guardsOk envEmpty = true ∧ rcOf envEmpty = 0 ∧ lisFound envEmpty = some lisHome ∧
      fsSize (fsAfter envEmpty) lisHome = 0) ∧
    ((run_simulation envEmpty).ret = none ∧
     (run_simulation envEmpty).status = some RunStatus.emptyLis ∧
     fsLookup (run_simulation envEmpty).fs lisHome = none) :=
  ⟨⟨by decide, by decide, by decide, by decide⟩,
   C5_zero_byte_deleted_and_usable_only.1 envEmpty lisHome (by decide) (by decide)
     (by decide) (by decide) (by decide) (by decide)⟩

/-- Claim C6 (confirmed): on a non-zero exit code with no result file of size
greater than 0 located, the outcome is `error`, `None` is returned, any
located zero-byte result file is deleted, and the log file — written into the
`logs` subdirectory of the effective output directory — contains the line
with the non-zero return code. -/
theorem C6_error_logged (env : RunEnv)
    (hg : guardsOk env = true) (hw : wineEarly env = false)
    (hraise : env.raiseUnexpected = false) (hrc : rcOf env ≠ 0)
    (hnouse : ∀ p, lisFound env = some p → fsSize (fsAfter env) p = 0) :
    (run_simulation env).status = some RunStatus.error ∧
    (run_simulation env).ret = none ∧
    (∀ p, lisFound env = some p → fsLookup (run_simulation env).fs p = none) ∧
    (run_simulation env).logPath = some (logPathOf env) ∧
    (logPathOf env).parent = (effOut env).child "logs" ∧
    ("Return code: " ++ toString (rcOf env)) ∈ (run_simulation env).logLines ∧
    ∃ m, fsLookup (run_simulation env).fs (logPathOf env) = some m := by
  have hrm := run_main env hg hw
  cases hl : lisFound env with
  | none =>
      rw [hrm, classify_error_none env hraise hrc hl]
      refine ⟨rfl, rfl, ?_, rfl, FPath.child_parent _ _, ?_, ?_⟩
      · intro p hp
        exact Option.noConfusion hp
      · show _ ∈ commonHead env "error" ++ streamLines env
        simp [commonHead]
      · refine ⟨linesLen (commonHead env "error" ++ streamLines env), ?_⟩
        show fsLookup (fsErase (errorResult env none).fs (tempAtp env)) (logPathOf env) = _
        rw [fsLookup_erase_ne _ _ _
              (ne_of_lowKey (by rw [logPathOf_lowKey, tempAtp_lowKey]; decide))]
        exact errorResult_logfile env none
  | some p =>
      have hsz : fsSize (fsAfter env) p = 0 := hnouse p hl
      have hns : ¬ 0 < fsSize (fsAfter env) p := by rw [hsz]; exact lt_irrefl 0
      have hp := (lisFound_facts hl).1
      rw [hrm, classify_error_zero env p hraise hrc hl hns]
      refine ⟨rfl, rfl, ?_, rfl, FPath.child_parent _ _, ?_, ?_⟩
      · intro q hq
        injection hq with e
        show fsLookup (fsErase (errorResult env (some p)).fs (tempAtp env)) q = none
        rw [← e]
        exact fsLookup_erase_of_none _ _ _ (errorResult_lookup_deleted env p hp)
      · show _ ∈ commonHead env "error" ++ streamLines env
        simp [commonHead]
      · refine ⟨linesLen (commonHead env "error" ++ streamLines env), ?_⟩
        show fsLookup (fsErase (errorResult env (some p)).fs (tempAtp env)) (logPathOf env) = _
        rw [fsLookup_erase_ne _ _ _
              (ne_of_lowKey (by rw [logPathOf_lowKey, tempAtp_lowKey]; decide))]
        exact errorResult_logfile env (some p)

/-- Witness for C6: exit code 1 with no result file — the outcome is `error`,
`None` is returned, and the log contains `Return code: 1`. -/
theorem C6_error_logged_witness :
    (guardsOk envErrorTmp = true ∧ rcOf envErrorTmp ≠ 0 ∧ lisFound envErrorTmp = none) ∧
    ((run_simulation envErrorTmp).status = some RunStatus.error ∧
     (run_simulation envErrorTmp).ret = none ∧
     (run_simulation envErrorTmp).logPath = some (logPathOf envErrorTmp) ∧
     ("Return code: " ++ toString (rcOf envErrorTmp)) ∈ (run_simulation envErrorTmp).logLines) :=
  ⟨⟨by decide, by decide, by decide⟩,
   (by
     have h := C6_error_logged envErrorTmp (by decide) (by decide) (by decide) (by decide)
       (by
         intro p hp
         have hnone : lisFound envErrorTmp = none := by decide
         rw [hnone] at hp
         exact Option.noConfusion hp)
     exact ⟨h.1, h.2.1, h.2.2.2.1, h.2.2.2.2.2.1⟩)⟩

/-- Claim C7, amended (corrected): the new `.tmp`/`.bin` scratch files are
deleted before return on the runs classified `success` or
`timeout_with_lis`; on the `error`, `empty_lis` and `no_lis` outcomes no such
cleanup is performed (see the counterexample). -/
theorem C7_scratch_cleanup (env : RunEnv) (d : FPath) (ns : List String) (n : String)
    (hg : guardsOk env = true) (hw : wineEarly env = false)
    (hraise : env.raiseUnexpected = false)
    (hst : (run_simulation env).status = some RunStatus.success ∨
           (run_simulation env).status = some RunStatus.timeoutWithLis)
    (hmem : (d, ns) ∈ newPerDir env) (hn : n ∈ ns) (htmp : isTmpName n = true) :
    fsLookup (run_simulation env).fs (FPath.child d n) = none := by
  have hq : FPath.child d n ∈ tmpTargets env := by
    rw [tmpTargets, List.mem_flatMap]
    exact ⟨(d, ns), hmem, List.mem_map.mpr ⟨n, List.mem_filter.mpr ⟨hn, htmp⟩, rfl⟩⟩
  rcases run_branches env hg hw hraise with
    ⟨p, _, _, _, hrun⟩ | ⟨p, _, _, _, hok, hrun⟩ | ⟨_, hstat⟩
  · rw [hrun]
    show fsLookup (fsErase (salvageResult env p).fs (tempAtp env)) _ = none
    exact fsLookup_erase_of_none _ _ _ (salvageResult_fs_tmp_none env p _ hq)
  · rw [hrun]
    show fsLookup (fsErase (successResult env p).fs (tempAtp env)) _ = none
    exact fsLookup_erase_of_none _ _ _ (successResult_fs_tmp_none env p _ hok hq)
  · exfalso
    rcases hst with h | h <;> rcases hstat with h2 | h2 | h2 | h2 <;>
      (rw [h] at h2; exact absurd h2 (by decide))

/-- Witness for C7: the salvaged timeout run deletes the new `junk.tmp`. -/
theorem C7_scratch_cleanup_witness :
    (guardsOk envSalvage = true ∧
     (run_simulation envSalvage).status = some RunStatus.timeoutWithLis ∧
     (dirSolver, ["junk.tmp"]) ∈ newPerDir envSalvage ∧
     isTmpName "junk.tmp" = true) ∧
    fsLookup (run_simulation envSalvage).fs (FPath.child dirSolver "junk.tmp") = none :=
  ⟨⟨by decide, by decide, by decide, by decide⟩,
   C7_scratch_cleanup envSalvage dirSolver ["junk.tmp"] "junk.tmp" (by decide) (by decide)
     (by decide) (Or.inr (by decide)) (by decide) (by decide) (by decide)⟩

/-- Counterexample to Claim C7 as stated: on the `error` outcome the newly
created `junk.tmp` is NOT deleted — it is still present when the run
returns. -/
theorem C7_error_path_counterexample :
    (run_simulation envErrorTmp).status = some RunStatus.error ∧
    (dirSolver, ["junk.tmp"]) ∈ newPerDir envErrorTmp ∧
    isTmpName "junk.tmp" = true ∧
    fsLookup (run_simulation envErrorTmp).fs (FPath.child dirSolver "junk.tmp") = some 3 := by
  decide

/-- Claim C8 (confirmed): the wall-clock timeout used while waiting for the
solver is the built-in default of 300 seconds; a set `ATP_TIMEOUT` overrides
it when it parses as a Python integer (whole seconds), and an absent, empty or
unparsable value falls back to the default. -/
theorem C8_timeout_env (env : RunEnv) (hg : guardsOk env = true)
    (hw : wineEarly env = false) :
    (run_simulation env).timeoutUsed = some (effectiveTimeout env.envTimeout) ∧
    (env.envTimeout = none → (run_simulation env).timeoutUsed = some 300) ∧
    (∀ s, env.envTimeout = some s → pyInt s = none →
      (run_simulation env).timeoutUsed = some 300) ∧
    (∀ s v, env.envTimeout = some s → pyInt s = some v →
      (run_simulation env).timeoutUsed = some v) := by
  have h1 : (run_simulation env).timeoutUsed = some (effectiveTimeout env.envTimeout) := by
    rw [run_main env hg hw]
    exact (classify_fixed_fields env).1
  refine ⟨h1, ?_, ?_, ?_⟩
  · intro h; rw [h1, h]; rfl
  · intro s hs hp
    rw [h1, hs]
    by_cases he : s = ""
    · simp [effectiveTimeout, he]
    · simp [effectiveTimeout, he, hp]
  · intro s v hs hp
    rw [h1, hs]
    have he : s ≠ "" := by
      intro e
      have hnone : pyInt "" = none := by decide
      rw [e, hnone] at hp
      exact Option.noConfusion hp
    simp [effectiveTimeout, he, hp]

/-- Witness for C8: with `ATP_TIMEOUT=42` the run waits 42 seconds. -/
theorem C8_timeout_env_witness :
    (guardsOk envTimeoutVar = true ∧ wineEarly envTimeoutVar = false ∧
      envTimeoutVar.envTimeout = some "42" ∧ pyInt "42" = some 42) ∧
    (run_simulation envTimeoutVar).timeoutUsed = some 42 :=
  ⟨⟨by decide, by decide, by decide, by decide⟩,
   (C8_timeout_env envTimeoutVar (by decide) (by decide)).2.2.2 "42" 42 (by decide) (by decide)⟩

/-- Claim C9 (confirmed): without an `output_dir` argument the effective
output directory — used for relocated files and for the `logs` subdirectory —
is the `.acp` file's own parent when that directory is named `ACP`
(case-insensitively), and otherwise the `ACP` directory next to the
`acp_parser` module file; it is not, in general, the deck's directory. -/
theorem C9_default_output_dir (env : RunEnv) (hg : guardsOk env = true)
    (hout : env.outputDir = none) :
    (run_simulation env).effOutDir
      = some (if strToLower env.acpPath.parent.name = "acp" then env.acpPath.parent
              else env.moduleDir.child "ACP") ∧
    (∀ lp, (run_simulation env).logPath = some lp →
      lp.parent
        = (if strToLower env.acpPath.parent.name = "acp" then env.acpPath.parent
           else env.moduleDir.child "ACP").child "logs") := by
  have heff : effOut env
      = (if strToLower env.acpPath.parent.name = "acp" then env.acpPath.parent
         else env.moduleDir.child "ACP") := by
    simp only [effOut, hout, defaultOutputDir]
  constructor
  · rw [run_effOutDir env hg, heff]
  · intro lp hlp
    rcases run_logPath_cases env hg with h | h
    · rw [h] at hlp
      exact Option.noConfusion hlp
    · rw [h] at hlp
      injection hlp with e
      rw [← e, logPathOf, FPath.child_parent, heff]

/-- Witness for C9: a deck inside `proj/ACP` without `output_dir` gets
`proj/ACP` as the effective output directory. -/
theorem C9_default_output_dir_witness :
    (guardsOk envAcpDir = true ∧ envAcpDir.outputDir = none) ∧
    (run_simulation envAcpDir).effOutDir
      = some (if strToLower envAcpDir.acpPath.parent.name = "acp"
              then envAcpDir.acpPath.parent
              else envAcpDir.moduleDir.child "ACP") :=
  ⟨⟨by decide, by decide⟩, (C9_default_output_dir envAcpDir (by decide) (by decide)).1⟩

end LisAnalysis
